import Mathlib

/-!
Verification of the daily-summary reconciliation pipeline of the
DataJoint-SQL-Tutorial repository (`create_summary_table.py` and
`pd_to_df.py`), as a shallow embedding in Lean 4.

Database queries are modelled by the lists of rows they return: a
`fetch` is the whole list, a `fetch1` succeeds exactly when the list
has one element (DataJoint raises a `DataJointError` otherwise).
Python/numpy floats are modelled by rationals; numpy values that can be
`nan` or `inf` are modelled by the `NpVal` type below.  `np.round(x, 2)`
is modelled by round-half-to-even at two decimals, numpy's rounding mode.
-/

namespace SummaryTable

/-- Round-half-to-even on rationals (numpy's rounding of a scalar). -/
def roundHalfEven (q : ℚ) : ℤ :=
  let f : ℤ := ⌊q⌋
  let frac : ℚ := q - f
  if frac < 1/2 then f
  else if 1/2 < frac then f + 1
  else if f % 2 = 0 then f else f + 1

/-- `np.round(q, decimals=2)` on an ordinary (finite) value. -/
def np_round2 (q : ℚ) : ℚ := (roundHalfEven (q * 100) : ℚ) / 100

/-- A numpy floating value: an ordinary number, `nan`, `inf` or `-inf`. -/
inductive NpVal where
  | num (q : ℚ)
  | nan
  | inf
  | neginf
deriving DecidableEq, Repr

/-- Numpy division `n / d`: division by zero yields `inf` / `-inf` / `nan`
depending on the sign of the numerator (a runtime warning, not an error). -/
def npDiv (n d : ℚ) : NpVal :=
  if d = 0 then (if 0 < n then .inf else if n < 0 then .neginf else .nan)
  else .num (n / d)

/-- `np.round(-, 2)` lifted to `NpVal`: `nan` and the infinities are fixed. -/
def npRound2 : NpVal → NpVal
  | .num q => .num (np_round2 q)
  | v => v

/-- `fetch1` of DataJoint: succeeds iff exactly one row matches, raises a
`DataJointError` (modelled as `Except.error ()`) on zero rows or on more
than one row. -/
def fetch1 {α : Type} (rows : List α) : Except Unit α :=
  match rows with
  | [a] => .ok a
  | _ => .error ()

/-- numpy `.max()` of a fetched array (defined on nonempty lists; the
default for `[]` is irrelevant because the code only calls it when the
length is `> 1`). -/
def listMax (rows : List ℚ) : ℚ :=
  match rows with
  | [] => 0
  | a :: rest => rest.foldl max a

theorem init_le_foldl_max (t : List ℚ) : ∀ a : ℚ, a ≤ t.foldl max a := by
  induction t with
  | nil => intro a; simp
  | cons b t ih =>
    intro a
    simpa using le_trans (le_max_left a b) (ih (max a b))

theorem mem_le_foldl_max (t : List ℚ) : ∀ (a x : ℚ), x ∈ t → x ≤ t.foldl max a := by
  induction t with
  | nil => intro a x hx; exact absurd hx (List.not_mem_nil x)
  | cons b t ih =>
    intro a x hx
    rcases List.mem_cons.mp hx with h | h
    · subst h
      simpa using le_trans (le_max_right a x) (init_le_foldl_max t (max a x))
    · simpa using ih (max a b) x h

theorem foldl_max_mem (t : List ℚ) : ∀ a : ℚ, t.foldl max a = a ∨ t.foldl max a ∈ t := by
  induction t with
  | nil => intro a; simp
  | cons b t ih =>
    intro a
    simp only [List.foldl_cons]
    rcases ih (max a b) with h | h
    · rcases max_choice a b with hm | hm <;> rw [hm] at h ⊢
      · exact Or.inl h
      · exact Or.inr (List.mem_cons.mpr (Or.inl h))
    · exact Or.inr (List.mem_cons.mpr (Or.inr h))

theorem foldl_max_mem_cons (t : List ℚ) (a : ℚ) : t.foldl max a ∈ a :: t := by
  rcases foldl_max_mem t a with h | h
  · exact List.mem_cons.mpr (Or.inl h)
  · exact List.mem_cons.mpr (Or.inr h)

theorem listMax_mem (rows : List ℚ) (h : rows ≠ []) : listMax rows ∈ rows := by
  match rows with
  | [] => exact absurd rfl h
  | a :: rest =>
    simp only [listMax]
    exact foldl_max_mem_cons rest a

theorem le_listMax (rows : List ℚ) (x : ℚ) (hx : x ∈ rows) : x ≤ listMax rows := by
  match rows with
  | [] => exact absurd hx (List.not_mem_nil x)
  | a :: rest =>
    simp only [listMax]
    rcases List.mem_cons.mp hx with h | h
    · exact h ▸ init_le_foldl_max rest x
    · exact mem_le_foldl_max rest a x h

/-- `fetch_daily_restriction_target`, with the fetched
`percent_target` rows of the Water table for the (animal, date) key as
input: zero rows give the sentinel `0`, more than one row gives the
maximum (the documented workaround for the duplicate-zero-row defect),
one row gives that row's value. -/
def fetch_daily_restriction_target (rows : List ℚ) : ℚ :=
  if rows.length = 0 then 0
  else if 1 < rows.length then listMax rows
  else rows.headD 0

/-- `fetch_daily_water_target`: when the resolved percent target is the
`0` sentinel, substitute 4 (mass below 100 g) or 3 (otherwise); the
volume target is `np.round((percent/100) * mass, 2)`. -/
def fetch_daily_water_target (mass percent_target : ℚ) : ℚ :=
  let pt : ℚ := if percent_target = 0 then (if mass < 100 then 4 else 3) else percent_target
  np_round2 (pt / 100 * mass)

/-- One row of the `ratinfo.Mass` table for a fixed animal: the measured
mass in grams and the technician's initials. -/
structure MassRow where
  mass : ℚ
  tech : String
deriving DecidableEq, Repr

/-- The technician field of a resolved mass: the fetched initials, or
`np.nan` when the mass was carried over from the previous day. -/
inductive TechVal where
  | tech (s : String)
  | nan
deriving DecidableEq, Repr

/-- `fetch_daily_mass` for a fixed animal.  `massTable d` is the list of
Mass rows whose `date` equals `d` (days numbered by integers, so `d - 1`
is exactly one calendar day earlier).  A failing `fetch1` on the exact
date is caught (`except DataJointError`) and the previous day's mass is
fetched with `tech = np.nan`; a failure of that second `fetch1` is not
caught and propagates. -/
def fetch_daily_mass (massTable : ℤ → List MassRow) (date : ℤ) :
    Except Unit (ℚ × TechVal) :=
  match fetch1 (massTable date) with
  | .ok r => .ok (r.mass, .tech r.tech)
  | .error _ =>
    match fetch1 (massTable (date - 1)) with
    | .ok r => .ok (r.mass, .nan)
    | .error e => .error e

/-- `fetch_pub_volume`, with the fetched `volume` rows of the Water table
as input: zero rows give 0, more than one row gives the maximum. -/
def fetch_pub_volume (rows : List ℚ) : ℚ :=
  if rows.length = 0 then 0
  else if 1 < rows.length then listMax rows
  else rows.headD 0

/-- `fetch_rig_volume`, with the `totalvol` rows of the Rigwater table
matching the (animal, date) key as input: the code uses `fetch1` inside
`try/except DataJointError`, so ANY failing fetch — zero rows or more
than one row — yields 0. -/
def fetch_rig_volume (rows : List ℚ) : ℚ :=
  match fetch1 rows with
  | .ok v => v
  | .error _ => 0

/-- The mass / water / restriction part of a daily summary row
(`fetch_daily_water_and_mass_info`). -/
structure WaterMassInfo where
  mass : ℚ
  tech : TechVal
  percent_target : ℚ
  pub_volume : ℚ
  rig_volume : ℚ
  volume_target : ℚ
  water_diff : ℚ
deriving DecidableEq, Repr

/-- `fetch_daily_water_and_mass_info` for one (animal, date):
`pctRows`, `pubRows`, `rigRows` are the rows the three water fetches
return for that key.  A mass-resolution failure propagates (nothing in
the caller catches it). -/
def fetch_daily_water_and_mass_info (massTable : ℤ → List MassRow)
    (pctRows pubRows rigRows : List ℚ) (date : ℤ) :
    Except Unit WaterMassInfo :=
  match fetch_daily_mass massTable date with
  | .error e => .error e
  | .ok (m, t) =>
    let pt := fetch_daily_restriction_target pctRows
    let pub := fetch_pub_volume pubRows
    let rig := fetch_rig_volume rigRows
    let vt := fetch_daily_water_target m pt
    .ok ⟨m, t, pt, pub, rig, vt, (pub + rig) - vt⟩

/-- One row of `bdata.Sessions` for a fixed animal and date, with the
fields `fetch_daily_session_info` fetches.  Start and end times are
seconds since midnight. -/
structure SessionRow where
  n_done_trials : ℕ
  hostname : String
  starttime : ℚ
  endtime : ℚ
  total_correct : ℚ
  percent_violations : ℚ
  right_correct : ℚ
  left_correct : ℚ
deriving DecidableEq, Repr

/-- `calculate_daily_train_dur` with `units="hours"`:
`np.round(np.sum(end_times - start_times).total_seconds() / 3600, 2)`. -/
def calculate_daily_train_dur (start_times end_times : List ℚ) : ℚ :=
  np_round2 ((List.zipWith (fun e s => e - s) end_times start_times).sum / 3600)

/-- `np.average(vals, weights)`: the weighted mean
`(Σ vals[i]*weights[i]) / (Σ weights[i])`. -/
def np_average (vals weights : List ℚ) : ℚ :=
  (List.zipWith (fun v w => v * w) vals weights).sum / weights.sum

/-- `calculate_perf_metrics`: trial-count-weighted averages of
`total_correct`, `percent_violations` and
`right_correct - left_correct` over the day's sessions. -/
def calculate_perf_metrics (total_correct percent_violations right_correct left_correct
    n_done_trials : List ℚ) : ℚ × ℚ × ℚ :=
  (np_average total_correct n_done_trials,
   np_average percent_violations n_done_trials,
   np_average (List.zipWith (fun r l => r - l) right_correct left_correct) n_done_trials)

/-- The session part of a daily summary row, as built by
`fetch_daily_session_info`.  `Option` fields model values that are
`np.nan` on the no-session branch (`rigid`, `start_time`); `NpVal`
fields model numpy floats that can be `nan` or `inf`. -/
structure DailySessionInfo where
  rigid : Option String
  n_done_trials : NpVal
  n_sessions : ℕ
  start_time : Option ℚ
  train_dur_hrs : ℚ
  trial_rate : NpVal
  hit_rate : NpVal
  viol_rate : NpVal
  side_bias : NpVal
deriving DecidableEq, Repr

/-- numpy `.min()` of a nonempty fetched array (default irrelevant:
only used on the branch where the list is nonempty). -/
def listMin (rows : List ℚ) : ℚ :=
  match rows with
  | [] => 0
  | a :: rest => rest.foldl min a

/-- `fetch_daily_session_info` for one (animal, date): `sessions` is
what the Sessions table holds for that key; the query restricts to
`n_done_trials > 1`.  With no matching session the row is emitted with
`n_sessions = 0`, `train_dur_hrs = 0` and `np.nan` everywhere else;
otherwise counts are summed, the rig id is the last row's, the start
time is the earliest, and the trial rate is
`np.round(n_done_trials / train_dur_hrs, 2)` (numpy division, so a zero
duration gives `inf`, not an exception). -/
def fetch_daily_session_info (sessions : List SessionRow) : DailySessionInfo :=
  let rows := sessions.filter (fun s => 1 < s.n_done_trials)
  if h : rows = [] then
    { rigid := none, n_done_trials := .nan, n_sessions := 0, start_time := none,
      train_dur_hrs := 0, trial_rate := .nan,
      hit_rate := .nan, viol_rate := .nan, side_bias := .nan }
  else
    let n : ℕ := (rows.map (fun s => s.n_done_trials)).sum
    let dur := calculate_daily_train_dur
      (rows.map (fun s => s.starttime)) (rows.map (fun s => s.endtime))
    let pm := calculate_perf_metrics
      (rows.map (fun s => s.total_correct))
      (rows.map (fun s => s.percent_violations))
      (rows.map (fun s => s.right_correct))
      (rows.map (fun s => s.left_correct))
      (rows.map (fun s => (s.n_done_trials : ℚ)))
    { rigid := some (rows.getLast h).hostname,
      n_done_trials := .num n,
      n_sessions := rows.length,
      start_time := some (listMin (rows.map (fun s => s.starttime))),
      train_dur_hrs := dur,
      trial_rate := npRound2 (npDiv n dur),
      hit_rate := .num pm.1, viol_rate := .num pm.2.1, side_bias := .num pm.2.2 }

end SummaryTable

namespace PdToDf

/-!
Embedding of the trial-record cleaner of `pd_to_df.py`.  A protocol-data
dictionary is modelled by a record of its parallel field arrays (the
representative fields the cleaner touches: `sides`, `sa`, `sb`,
`result`, and the optional `dms_type`/`is_match`); the DMS categorical
`dms_type` is modelled already converted to booleans (`astype(bool)`
is value-preserving in that respect).  Python errors are explicit:
`keyError` (subscripting a dictionary key that is absent),
`indexError` (an out-of-range element assignment or access),
`saNotKnown` (the failed `assert sa[trial] in MAP_SA_TO_SB`),
`broadcastError` (numpy slice-assignment shape mismatch) and
`lengthAssert` (`assert n_unique_lens == 1`).
-/

/-- Errors the cleaning code can raise for a session. -/
inductive CleanError where
  | keyError
  | indexError
  | saNotKnown
  | broadcastError
  | lengthAssert
deriving DecidableEq, Repr

/-- The fixed `MAP_SA_TO_SB = {12000: 3000, 3000: 12000}` substitution
table; `none` means the stimulus-A value is absent from the table. -/
def MAP_SA_TO_SB (sa : ℚ) : Option ℚ :=
  if sa = 12000 then some 3000 else if sa = 3000 then some 12000 else none

/-- A session's protocol-data dictionary after the `sides` expansion and
the `dms_type` → `is_match` relabeling. -/
structure ProtocolDict where
  sides : List Char
  sa : List ℚ
  sb : List ℚ
  result : List ℚ
  is_match : Option (List Bool)
deriving DecidableEq, Repr

/-- A session's raw protocol-data dictionary as fetched: `sides` is a
packed string, the DMS category field carries its original name. -/
structure RawProtocolDict where
  sides : String
  sa : List ℚ
  sb : List ℚ
  result : List ℚ
  dms_type : Option (List Bool)
deriving DecidableEq, Repr

/-- Python element assignment `l[i] = v`: an `IndexError` when `i` is
out of range. -/
def listSet1 (l : List ℚ) (i : ℕ) (v : ℚ) : Except CleanError (List ℚ) :=
  if i < l.length then .ok (l.set i v) else .error .indexError

/-- The `for trial in range(len(sa))` loop of `_truncate_sb_length`,
over the remaining index list: `sb[trial] = sa[trial]` when
`match[trial]` holds, else `assert sa[trial] in MAP_SA_TO_SB` and
`sb[trial] = MAP_SA_TO_SB[sa[trial]]`. -/
def rewrite_sb_loop (sa : List ℚ) (mt : List Bool) :
    List ℕ → List ℚ → Except CleanError (List ℚ)
  | [], sb => .ok sb
  | i :: rest, sb =>
    match mt[i]? with
    | none => .error .indexError
    | some m =>
      match sa[i]? with
      | none => .error .indexError
      | some sav =>
        if m then
          match listSet1 sb i sav with
          | .error e => .error e
          | .ok sb2 => rewrite_sb_loop sa mt rest sb2
        else
          match MAP_SA_TO_SB sav with
          | none => .error .saNotKnown
          | some w =>
            match listSet1 sb i w with
            | .error e => .error e
            | .ok sb2 => rewrite_sb_loop sa mt rest sb2

/-- `_truncate_sb_length`: the function first evaluates
`match = protocol_dict["is_match"]` — BEFORE the
`if "is_match" in protocol_dict` membership test — so a session without
the is-match field raises a `KeyError` right there, and the `else`
branch that would print the only-fixing-length warning and the
subsequent `sb[0:-1]` truncation are unreachable for such sessions.
When the session carries `is_match`, the membership test succeeds and
every `sb[trial]` for `trial < len(sa)` is rewritten from `sa` and the
substitution table, then the final `sb` entry is dropped (`sb[0:-1]`).
The returned boolean records whether the warning branch ran (it never
does, this is the dead path). -/
def truncate_sb_length (p : ProtocolDict) : Except CleanError (ProtocolDict × Bool) :=
  match p.is_match with
  | none => .error .keyError
  | some mt =>
    match rewrite_sb_loop p.sa mt (List.range p.sa.length) p.sb with
    | .error e => .error e
    | .ok sb2 => .ok ({ p with sb := sb2.dropLast }, false)

/-- `_fill_result_post_crash`: right-pad the `result` array with the
crash code 5 up to `len(sa)` (`np.ones(len(sa)) * 5` overwritten on
`[0:len(results)]`); a `result` array longer than `sa` cannot be
broadcast into the slice and raises. -/
def fill_result_post_crash (p : ProtocolDict) : Except CleanError ProtocolDict :=
  if p.result.length ≤ p.sa.length then
    .ok { p with result := p.result ++ List.replicate (p.sa.length - p.result.length) 5 }
  else .error .broadcastError

/-- The lengths of a session dictionary's field arrays
(`map(len, protocol_dict.values())`). -/
def fieldLengths (p : ProtocolDict) : List ℕ :=
  [p.sides.length, p.sa.length, p.sb.length, p.result.length] ++
    (match p.is_match with | some mt => [mt.length] | none => [])

/-- The per-session body of `pd_prepare_dicts_for_df`: expand `sides`,
relabel `dms_type` to `is_match`, repair the `sb` length when it differs
from `sa`, repair the `result` length when it differs from `sa`, then
`assert` that all field arrays have one single length. -/
def pd_prepare_dict (raw : RawProtocolDict) : Except CleanError ProtocolDict :=
  let p0 : ProtocolDict :=
    { sides := raw.sides.data, sa := raw.sa, sb := raw.sb,
      result := raw.result, is_match := raw.dms_type }
  match (if p0.sa.length ≠ p0.sb.length then
           match truncate_sb_length p0 with
           | .error e => .error e
           | .ok pr => .ok pr.1
         else .ok p0 : Except CleanError ProtocolDict) with
  | .error e => .error e
  | .ok p1 =>
    match (if p1.sa.length ≠ p1.result.length then fill_result_post_crash p1
           else .ok p1 : Except CleanError ProtocolDict) with
    | .error e => .error e
    | .ok p2 =>
      if (fieldLengths p2).eraseDups.length = 1 then .ok p2
      else .error .lengthAssert

/-- `pd_prepare_dicts_for_df` loops over the sessions of one animal in
order; the asserts and repairs raise out of the loop, so the first
failing session aborts the whole call (nothing catches the exception). -/
def pd_prepare_dicts_for_df : List RawProtocolDict → Except CleanError (List ProtocolDict)
  | [] => .ok []
  | d :: rest =>
    match pd_prepare_dict d with
    | .error e => .error e
    | .ok p =>
      match pd_prepare_dicts_for_df rest with
      | .error e => .error e
      | .ok ps => .ok (p :: ps)

/-- The per-animal loop of `fetch_latest_training_data`, restricted to
the cleaning stage: each animal's session dictionaries are prepared in
turn, and an uncaught exception for one animal aborts the whole fetch. -/
def fetch_latest_training_data : List (List RawProtocolDict) →
    Except CleanError (List (List ProtocolDict))
  | [] => .ok []
  | a :: rest =>
    match pd_prepare_dicts_for_df a with
    | .error e => .error e
    | .ok ps =>
      match fetch_latest_training_data rest with
      | .error e => .error e
      | .ok pss => .ok (ps :: pss)

/-- A ten-trial stimulus-A array of in-table levels, for the claim's
length-10/length-11 example. -/
def saEx10 : List ℚ :=
  [12000, 3000, 12000, 3000, 12000, 3000, 12000, 3000, 12000, 3000]

/-- A DMS session with the off-by-one defect: stimulus-B one entry
longer than stimulus-A, is-match per trial. -/
def sbFixEx : ProtocolDict :=
  ⟨[], [12000, 3000], [7, 7, 7], [], some [true, false]⟩

/-- A non-DMS session with mismatched stimulus lengths (no is-match
field): the unconditional `protocol_dict["is_match"]` subscript raises
a `KeyError` before anything is repaired. -/
def sbWarnEx : ProtocolDict :=
  ⟨[], [12000, 3000], [7, 8, 9], [], none⟩

/-- A well-formed session: every field array has length 2. -/
def goodCleanEx : RawProtocolDict :=
  ⟨"lr", [12000, 3000], [3000, 12000], [1, 0], none⟩

/-- A malformed session the cleaner cannot repair: the `sides` array
has length 3 while every other field array has length 2, so the
uniform-length assert fails. -/
def badCleanEx : RawProtocolDict :=
  ⟨"lrl", [12000, 3000], [3000, 12000], [1, 0], none⟩

end PdToDf

namespace PdToDf

/-- The value the DMS rewrite assigns to `sb` at trial `i`: stimulus A
itself on match trials, the substitution-table image on non-match
trials. -/
def sbTarget (sa : List ℚ) (mt : List Bool) (i : ℕ) : ℚ :=
  if mt.getD i true = true then sa.getD i 0
  else (MAP_SA_TO_SB (sa.getD i 0)).getD 0

theorem getD_set_self (l : List ℚ) (i : ℕ) (v : ℚ) (h : i < l.length) :
    (l.set i v).getD i 0 = v := by
  rw [List.getD_eq_getElem?_getD, List.getElem?_set_eq_of_lt v h]
  rfl

theorem getD_set_ne (l : List ℚ) (i j : ℕ) (v : ℚ) (h : i ≠ j) :
    (l.set i v).getD j 0 = l.getD j 0 := by
  rw [List.getD_eq_getElem?_getD, List.getElem?_set_ne h, ← List.getD_eq_getElem?_getD]

theorem getD_dropLast (l : List ℚ) (i : ℕ) (h : i < l.dropLast.length) :
    l.dropLast.getD i 0 = l.getD i 0 := by
  have hl : i < l.length := by
    rw [List.length_dropLast] at h; omega
  rw [List.getD_eq_getElem?_getD, List.getD_eq_getElem?_getD,
      List.getElem?_eq_getElem h, List.getElem?_eq_getElem hl]
  simp [List.getElem_dropLast]

/-- One iteration of the `sb` rewrite loop: with `match[i]`, `sa[i]` and
`sb[i]` all in range and the substitution defined where needed, the
iteration performs `sb[i] = <target value>`. -/
theorem rewrite_sb_loop_cons (sa : List ℚ) (mt : List Bool) (i : ℕ) (rest : List ℕ)
    (sb : List ℚ) (hisa : i < sa.length) (himt : i < mt.length) (hisb : i < sb.length)
    (hmap : mt.getD i true = true ∨ (MAP_SA_TO_SB (sa.getD i 0)).isSome) :
    rewrite_sb_loop sa mt (i :: rest) sb =
      rewrite_sb_loop sa mt rest (sb.set i (sbTarget sa mt i)) := by
  have hmtv : mt[i]? = some (mt.getD i true) := by
    rw [List.getD_eq_getElem?_getD, List.getElem?_eq_getElem himt]
    rfl
  have hsav : sa[i]? = some (sa.getD i 0) := by
    rw [List.getD_eq_getElem?_getD, List.getElem?_eq_getElem hisa]
    rfl
  rcases hm : mt.getD i true with _ | _
  · obtain ⟨w, hw⟩ : ∃ w, MAP_SA_TO_SB (sa.getD i 0) = some w := by
      rcases hmap with h | h
      · rw [hm] at h; simp at h
      · exact Option.isSome_iff_exists.mp h
    rw [hm] at hmtv
    simp only [rewrite_sb_loop, hmtv, hsav, hw, listSet1, if_pos hisb, sbTarget, hm]
    simp [hw]
  · rw [hm] at hmtv
    simp only [rewrite_sb_loop, hmtv, hsav, listSet1, if_pos hisb, sbTarget, hm]
    simp

/-- Correctness of the full `sb` rewrite loop: when every visited index
is in range for `sa`, `match` and `sb`, and the substitution table is
defined at every non-match index, the loop succeeds, preserves the
length of `sb`, rewrites every visited position to its target value and
leaves every other position unchanged. -/
theorem rewrite_sb_loop_ok (sa : List ℚ) (mt : List Bool) (idxs : List ℕ) :
    ∀ (sb : List ℚ),
    (∀ i ∈ idxs, i < sa.length ∧ i < mt.length ∧ i < sb.length ∧
       (mt.getD i true = true ∨ (MAP_SA_TO_SB (sa.getD i 0)).isSome)) →
    ∃ sb2, rewrite_sb_loop sa mt idxs sb = .ok sb2 ∧
      sb2.length = sb.length ∧
      ∀ j : ℕ, sb2.getD j 0 = if j ∈ idxs then sbTarget sa mt j else sb.getD j 0 := by
  induction idxs with
  | nil =>
    intro sb h
    exact ⟨sb, rfl, rfl, by simp⟩
  | cons i rest ih =>
    intro sb h
    obtain ⟨hisa, himt, hisb, hmap⟩ := h i (List.mem_cons_self i rest)
    rw [rewrite_sb_loop_cons sa mt i rest sb hisa himt hisb hmap]
    obtain ⟨sb2, heq, hlen, hget⟩ := ih (sb.set i (sbTarget sa mt i)) (by
      intro i2 hi2
      obtain ⟨h1, h2, h3, h4⟩ := h i2 (List.mem_cons.mpr (Or.inr hi2))
      exact ⟨h1, h2, by simpa using h3, h4⟩)
    refine ⟨sb2, heq, by simpa using hlen, ?_⟩
    intro j
    rw [hget j]
    by_cases hjr : j ∈ rest
    · simp [hjr, List.mem_cons.mpr (Or.inr hjr)]
    · by_cases hji : j = i
      · subst hji
        have hv := getD_set_self sb j (sbTarget sa mt j) hisb
        simp [hjr, hv]
        rw [List.getElem?_set_eq_of_lt _ hisb]
        rfl
      · simp only [if_neg hjr]
        rw [getD_set_ne sb i j _ (fun hc => hji hc.symm)]
        rw [if_neg (by simp [hji, hjr])]

/-- C7 counterexample: a session whose stimulus arrays differ in length
with stimulus-B SHORTER than stimulus-A (here length 0 versus 1) and
that carries is-match makes the rewrite loop assign `sb[0]` out of
range: the cleaner raises an IndexError instead of truncating and
rewriting as the claim states. -/
theorem claim_C7_sb_repair_counterexample :
    truncate_sb_length ⟨[], [12000], [], [], some [true]⟩ =
      .error .indexError := rfl

/-- C7 (amended): for every session carrying the is-match field whose
stimulus-B array is exactly one entry longer than stimulus-A (the
off-by-one logging defect the repair targets), with is-match of the
same length as stimulus-A and the substitution table defined at every
non-match stimulus-A value, the cleaner succeeds: the returned
stimulus-B is one entry shorter, has the length of stimulus-A, and
every entry is stimulus-A at match positions and the table image at
non-match positions.  A stimulus-A value absent from the table is a
fatal error, and stimulus-A length 10 / stimulus-B length 11 with
is-match all true yields stimulus-B equal to stimulus-A. -/
theorem claim_C7_sb_repair (p : ProtocolDict) (mt : List Bool)
    (hm : p.is_match = some mt)
    (hmt : mt.length = p.sa.length)
    (hsb : p.sb.length = p.sa.length + 1)
    (hmap : ∀ i : ℕ, i < p.sa.length → mt.getD i true = false →
      (MAP_SA_TO_SB (p.sa.getD i 0)).isSome) :
    (∃ q : ProtocolDict,
      truncate_sb_length p = .ok (q, false) ∧
      q.sa = p.sa ∧ q.sb.length = p.sb.length - 1 ∧ q.sb.length = p.sa.length ∧
      ∀ i : ℕ, i < p.sa.length →
        q.sb.getD i 0 = if mt.getD i true = true then p.sa.getD i 0
          else (MAP_SA_TO_SB (p.sa.getD i 0)).getD 0) ∧
    truncate_sb_length ⟨[], [500, 500], [0, 0, 0], [], some [false, false]⟩ =
      .error .saNotKnown ∧
    truncate_sb_length ⟨[], saEx10, List.replicate 11 0, [], some (List.replicate 10 true)⟩ =
      .ok (⟨[], saEx10, saEx10, [], some (List.replicate 10 true)⟩, false) := by
  refine ⟨?_, ?_, ?_⟩
  · obtain ⟨sb2, heq, hlen, hget⟩ := rewrite_sb_loop_ok p.sa mt
      (List.range p.sa.length) p.sb (by
        intro i hi
        have hil : i < p.sa.length := List.mem_range.mp hi
        refine ⟨hil, by omega, by omega, ?_⟩
        rcases hmv : mt.getD i true with _ | _
        · exact Or.inr (hmap i hil hmv)
        · exact Or.inl rfl)
    refine ⟨{ p with sb := sb2.dropLast }, ?_, rfl, ?_, ?_, ?_⟩
    · simp only [truncate_sb_length, hm, heq]
    · simp [List.length_dropLast, hlen]
    · simp [List.length_dropLast, hlen, hsb]
    · intro i hi
      have hdl : i < sb2.dropLast.length := by
        rw [List.length_dropLast, hlen, hsb]; omega
      have := getD_dropLast sb2 i hdl
      simp only [this]
      rw [hget i, if_pos (List.mem_range.mpr hi)]
      rfl
  · rfl
  · rfl

theorem claim_C7_sb_repair_witness :
    (∃ q : ProtocolDict,
      truncate_sb_length sbFixEx = .ok (q, false) ∧
      q.sa = sbFixEx.sa ∧ q.sb.length = sbFixEx.sb.length - 1 ∧
      q.sb.length = sbFixEx.sa.length ∧
      ∀ i : ℕ, i < sbFixEx.sa.length →
        q.sb.getD i 0 = if ([true, false] : List Bool).getD i true = true
          then sbFixEx.sa.getD i 0
          else (MAP_SA_TO_SB (sbFixEx.sa.getD i 0)).getD 0) :=
  (claim_C7_sb_repair sbFixEx [true, false] rfl rfl rfl (by
    intro i hi hf
    match i, hi with
    | 0, _ => simp at hf
    | 1, _ => norm_num [sbFixEx, MAP_SA_TO_SB])).1

/-- C8: the claim describes the intended warn-and-truncate-only path
the function's own docstring and `else` branch document, but the code
evaluates `protocol_dict["is_match"]` before the membership test
(pd_to_df.py line 223), so a session without the is-match field raises
a `KeyError` there: it never surfaces the warning, never truncates
stimulus-B, and does raise.  Evaluating the embedded code at a
no-is-match session with mismatched stimulus lengths (stimulus-A length
2, stimulus-B length 3) yields the error. -/
theorem claim_C8_sb_no_match_keyerror :
    truncate_sb_length sbWarnEx = .error .keyError ∧
    sbWarnEx.is_match = none ∧
    sbWarnEx.sa.length ≠ sbWarnEx.sb.length :=
  ⟨rfl, rfl, by simp [sbWarnEx]⟩

/-- C9 counterexample: `badCleanEx` fails the post-repair uniform-length
assert (its `sides` array has length 3, everything else length 2), and
that exception propagates out of the per-session loop: the batch over
[good session, bad session] — and the whole multi-animal fetch — return
the error, so the good session's records are NOT produced, contrary to
the claim that only the bad session's contribution is aborted. -/
theorem claim_C9_fatal_aborts_run_counterexample :
    pd_prepare_dict badCleanEx = .error .lengthAssert ∧
    pd_prepare_dicts_for_df [goodCleanEx] =
      .ok [⟨['l', 'r'], [12000, 3000], [3000, 12000], [1, 0], none⟩] ∧
    pd_prepare_dicts_for_df [goodCleanEx, badCleanEx] = .error .lengthAssert ∧
    fetch_latest_training_data [[goodCleanEx], [badCleanEx]] =
      .error .lengthAssert :=
  ⟨rfl, rfl, rfl, rfl⟩

/-- C9 (amended): a session whose field arrays still differ in length
after the repair steps raises a fatal error, and the error propagates
out of the per-session loop: the whole per-animal batch returns an
error, producing no trial records for ANY session of the run (rather
than aborting only the failing session's contribution). -/
theorem claim_C9_fatal_aborts_run (dicts : List RawProtocolDict)
    (p : RawProtocolDict) (hp : p ∈ dicts) (e : CleanError)
    (he : pd_prepare_dict p = .error e) :
    ∃ e2 : CleanError, pd_prepare_dicts_for_df dicts = .error e2 := by
  induction dicts with
  | nil => exact absurd hp (List.not_mem_nil p)
  | cons d rest ih =>
    rcases List.mem_cons.mp hp with h | h
    · subst h
      exact ⟨e, by simp [pd_prepare_dicts_for_df, he]⟩
    · cases hd : pd_prepare_dict d with
      | error e3 => exact ⟨e3, by simp [pd_prepare_dicts_for_df, hd]⟩
      | ok q =>
        obtain ⟨e2, h2⟩ := ih h
        exact ⟨e2, by simp [pd_prepare_dicts_for_df, hd, h2]⟩

theorem claim_C9_fatal_aborts_run_witness :
    ∃ e2 : CleanError,
      pd_prepare_dicts_for_df [goodCleanEx, badCleanEx] = .error e2 :=
  claim_C9_fatal_aborts_run [goodCleanEx, badCleanEx] badCleanEx
    (by simp) .lengthAssert rfl

end PdToDf

namespace SummaryTable

/-- C1: for every (animal, date) key, the restriction percent-target
resolver returns 0 on zero fetched rows, the single fetched value on
exactly one row, and the maximum of the fetched values on more than one
row; in particular fetched rows [0, 4.5] resolve to 4.5. -/
theorem claim_C1_restriction_target (rows : List ℚ) :
    (rows = [] → fetch_daily_restriction_target rows = 0) ∧
    (∀ p : ℚ, rows = [p] → fetch_daily_restriction_target rows = p) ∧
    (1 < rows.length →
      fetch_daily_restriction_target rows ∈ rows ∧
      ∀ x ∈ rows, x ≤ fetch_daily_restriction_target rows) ∧
    fetch_daily_restriction_target [0, 9/2] = 9/2 := by
  refine ⟨?_, ?_, ?_, ?_⟩
  · intro h; subst h; rfl
  · intro p h; subst h; rfl
  · intro h
    have hne : rows ≠ [] := by
      intro hnil; rw [hnil] at h; simp at h
    have hfrm : fetch_daily_restriction_target rows = listMax rows := by
      unfold fetch_daily_restriction_target
      rw [if_neg (by omega), if_pos h]
    rw [hfrm]
    exact ⟨listMax_mem rows hne, fun x hx => le_listMax rows x hx⟩
  · norm_num [fetch_daily_restriction_target, listMax]

theorem claim_C1_restriction_target_witness :
    fetch_daily_restriction_target [] = 0 ∧
    fetch_daily_restriction_target [7] = 7 ∧
    fetch_daily_restriction_target [0, 9/2] ∈ ([0, 9/2] : List ℚ) ∧
    (9/2 : ℚ) ≤ fetch_daily_restriction_target [0, 9/2] :=
  ⟨(claim_C1_restriction_target []).1 rfl,
   (claim_C1_restriction_target [7]).2.1 7 rfl,
   ((claim_C1_restriction_target [0, 9/2]).2.2.1 (by norm_num)).1,
   ((claim_C1_restriction_target [0, 9/2]).2.2.1 (by norm_num)).2 (9/2)
     (by simp)⟩

/-- C2: the volume target is `round((pt/100) * mass, 2)` where the
percent `pt` is the resolved percent when nonzero, 4 when the resolved
percent is 0 and the mass is below 100 g, and 3 when the resolved
percent is 0 and the mass is at least 100 g; with zero restriction rows
and mass 80 g the 4% branch gives 3.2 mL, with mass 150 g the 3% branch
gives 4.5 mL. -/
theorem claim_C2_volume_target (m p : ℚ) :
    (p ≠ 0 → fetch_daily_water_target m p = np_round2 (p / 100 * m)) ∧
    (p = 0 → m < 100 → fetch_daily_water_target m p = np_round2 (4 / 100 * m)) ∧
    (p = 0 → ¬ m < 100 → fetch_daily_water_target m p = np_round2 (3 / 100 * m)) ∧
    fetch_daily_water_target 80 (fetch_daily_restriction_target []) = 16/5 ∧
    fetch_daily_water_target 150 (fetch_daily_restriction_target []) = 9/2 := by
  refine ⟨?_, ?_, ?_, ?_, ?_⟩
  · intro hp; simp only [fetch_daily_water_target, if_neg hp]
  · intro hp hm; simp only [fetch_daily_water_target, if_pos hp, if_pos hm]
  · intro hp hm; simp only [fetch_daily_water_target, if_pos hp, if_neg hm]
  · norm_num [fetch_daily_restriction_target, fetch_daily_water_target, np_round2,
      roundHalfEven]
  · norm_num [fetch_daily_restriction_target, fetch_daily_water_target, np_round2,
      roundHalfEven]

theorem claim_C2_volume_target_witness :
    fetch_daily_water_target 80 0 = np_round2 (4 / 100 * 80) ∧
    fetch_daily_water_target 150 0 = np_round2 (3 / 100 * 150) ∧
    fetch_daily_water_target 150 (9/2) = np_round2 ((9/2) / 100 * 150) :=
  ⟨(claim_C2_volume_target 80 0).2.1 rfl (by norm_num),
   (claim_C2_volume_target 150 0).2.2.1 rfl (by norm_num),
   (claim_C2_volume_target 150 (9/2)).1 (by norm_num)⟩

/-- The non-empty branch of `fetch_daily_session_info` sets
`train_dur_hrs` from `calculate_daily_train_dur`. -/
theorem sessionInfo_train_dur (sessions : List SessionRow)
    (h : sessions.filter (fun s => 1 < s.n_done_trials) ≠ []) :
    (fetch_daily_session_info sessions).train_dur_hrs =
      calculate_daily_train_dur
        ((sessions.filter (fun s => 1 < s.n_done_trials)).map (fun s => s.starttime))
        ((sessions.filter (fun s => 1 < s.n_done_trials)).map (fun s => s.endtime)) := by
  simp only [fetch_daily_session_info]
  rw [dif_neg h]

/-- The non-empty branch of `fetch_daily_session_info` sets
`trial_rate = np.round(n_done_trials / train_dur_hrs, 2)` with numpy
division. -/
theorem sessionInfo_trial_rate (sessions : List SessionRow)
    (h : sessions.filter (fun s => 1 < s.n_done_trials) ≠ []) :
    (fetch_daily_session_info sessions).trial_rate =
      npRound2 (npDiv
        (((((sessions.filter (fun s => 1 < s.n_done_trials)).map
            (fun s => s.n_done_trials) : List ℕ)).sum : ℚ))
        ((fetch_daily_session_info sessions).train_dur_hrs)) := by
  rw [sessionInfo_train_dur sessions h]
  simp only [fetch_daily_session_info]
  rw [dif_neg h]

/-- Every session surviving the `n_done_trials > 1` filter has at least
2 completed trials, so a day with a surviving session has a positive
trial total. -/
theorem filtered_trials_pos (sessions : List SessionRow)
    (h : sessions.filter (fun s => 1 < s.n_done_trials) ≠ []) :
    0 < (((sessions.filter (fun s => 1 < s.n_done_trials)).map
        (fun s => s.n_done_trials) : List ℕ)).sum := by
  obtain ⟨s, hs⟩ := List.exists_mem_of_ne_nil _ h
  have h2 : 1 < s.n_done_trials := by
    have := List.mem_filter.mp hs
    simpa using this.2
  have h3 : s.n_done_trials ∈ ((sessions.filter (fun s => 1 < s.n_done_trials)).map
      (fun s => s.n_done_trials) : List ℕ) :=
    List.mem_map_of_mem _ hs
  have h4 := List.single_le_sum
    (l := ((sessions.filter (fun s => 1 < s.n_done_trials)).map
      (fun s => s.n_done_trials) : List ℕ)) (by intro x hx; omega) _ h3
  omega

/-- C4 counterexample: a day with one session of 300 completed trials
whose start and end times coincide has training duration 0, and the
trial rate the code computes there is `inf` (numpy division by zero),
not the missing sentinel `nan` the claim requires. -/
theorem claim_C4_trial_rate_counterexample :
    (fetch_daily_session_info [⟨300, "Rig1", 0, 0, 1, 0, 0, 0⟩]).n_sessions = 1 ∧
    (fetch_daily_session_info [⟨300, "Rig1", 0, 0, 1, 0, 0, 0⟩]).train_dur_hrs = 0 ∧
    (fetch_daily_session_info [⟨300, "Rig1", 0, 0, 1, 0, 0, 0⟩]).trial_rate = .inf ∧
    NpVal.inf ≠ NpVal.nan := by
  refine ⟨?_, ?_, ?_, by simp⟩ <;>
    norm_num [fetch_daily_session_info, calculate_daily_train_dur, np_round2,
      roundHalfEven, npDiv, npRound2]

/-- C4 (amended): with at least one session and a nonzero training
duration, the trial rate is the total completed trials divided by the
duration in hours, rounded to 2 decimals (300 trials over 5 hours give
60); with at least one session and a zero training duration, the trial
rate is `inf` (numpy divides by zero without raising), not the missing
sentinel; the missing sentinel arises exactly when no session survives
the `n_done_trials > 1` filter. -/
theorem claim_C4_trial_rate (sessions : List SessionRow) :
    (sessions.filter (fun s => 1 < s.n_done_trials) ≠ [] →
      (fetch_daily_session_info sessions).train_dur_hrs ≠ 0 →
      (fetch_daily_session_info sessions).trial_rate =
        .num (np_round2
          ((((sessions.filter (fun s => 1 < s.n_done_trials)).map
              (fun s => s.n_done_trials) : List ℕ).sum : ℚ) /
            (fetch_daily_session_info sessions).train_dur_hrs))) ∧
    (sessions.filter (fun s => 1 < s.n_done_trials) ≠ [] →
      (fetch_daily_session_info sessions).train_dur_hrs = 0 →
      (fetch_daily_session_info sessions).trial_rate = .inf) ∧
    (sessions.filter (fun s => 1 < s.n_done_trials) = [] →
      (fetch_daily_session_info sessions).trial_rate = .nan) ∧
    (fetch_daily_session_info [⟨300, "Rig1", 0, 18000, 1, 0, 0, 0⟩]).trial_rate
      = .num 60 := by
  refine ⟨?_, ?_, ?_, ?_⟩
  · intro h hd
    rw [sessionInfo_trial_rate sessions h]
    simp only [npDiv, if_neg hd, npRound2]
  · intro h hd
    rw [sessionInfo_trial_rate sessions h, hd]
    have hn : (0:ℚ) < ((((sessions.filter (fun s => 1 < s.n_done_trials)).map
        (fun s => s.n_done_trials) : List ℕ)).sum : ℚ) := by
      exact_mod_cast filtered_trials_pos sessions h
    unfold npDiv
    rw [if_pos rfl, if_pos hn]
    rfl
  · intro h
    simp only [fetch_daily_session_info]
    rw [dif_pos h]
  · norm_num [fetch_daily_session_info, calculate_daily_train_dur, np_round2,
      roundHalfEven, npDiv, npRound2]

theorem claim_C4_trial_rate_witness :
    (fetch_daily_session_info [⟨300, "Rig1", 0, 18000, 1, 0, 0, 0⟩]).trial_rate =
      NpVal.num (np_round2
        ((((([⟨300, "Rig1", 0, 18000, 1, 0, 0, 0⟩] : List SessionRow).filter
            (fun s => 1 < s.n_done_trials)).map
            (fun s => s.n_done_trials) : List ℕ).sum : ℚ) /
          (fetch_daily_session_info
            [⟨300, "Rig1", 0, 18000, 1, 0, 0, 0⟩]).train_dur_hrs)) ∧
    (fetch_daily_session_info [⟨300, "Rig2", 0, 0, 1, 0, 0, 0⟩]).trial_rate = .inf ∧
    (fetch_daily_session_info []).trial_rate = .nan :=
  ⟨(claim_C4_trial_rate [⟨300, "Rig1", 0, 18000, 1, 0, 0, 0⟩]).1
      (by norm_num [List.filter])
      (by norm_num [fetch_daily_session_info, calculate_daily_train_dur, np_round2,
        roundHalfEven]),
   (claim_C4_trial_rate [⟨300, "Rig2", 0, 0, 1, 0, 0, 0⟩]).2.1
      (by norm_num [List.filter])
      (by norm_num [fetch_daily_session_info, calculate_daily_train_dur, np_round2,
        roundHalfEven]),
   (claim_C4_trial_rate []).2.2.1 rfl⟩

/-- C5 counterexample: on a day with zero session records, the code
sets the count field `n_done_trials` to the missing sentinel `nan`, not
to 0 as the claim states, and sets the time field `train_dur_hrs` to 0,
not to the missing sentinel. -/
theorem claim_C5_counterexample :
    (fetch_daily_session_info []).n_done_trials = .nan ∧
    NpVal.nan ≠ NpVal.num 0 ∧
    (fetch_daily_session_info []).train_dur_hrs = 0 := by
  refine ⟨?_, by simp, ?_⟩ <;> simp [fetch_daily_session_info]

/-- C5 (amended): for a day with zero surviving session records, the
session aggregator returns a row without raising, with `n_sessions = 0`
and `train_dur_hrs = 0`, and with `rigid`, `n_done_trials`,
`start_time`, `trial_rate`, `hit_rate`, `viol_rate`, `side_bias` all
set to the missing sentinel; and the daily water-and-mass builder for a
day with one Mass row succeeds with the mass and water fields
populated. -/
theorem claim_C5_no_sessions (sessions : List SessionRow)
    (h : sessions.filter (fun s => 1 < s.n_done_trials) = []) :
    fetch_daily_session_info sessions =
      { rigid := none, n_done_trials := .nan, n_sessions := 0, start_time := none,
        train_dur_hrs := 0, trial_rate := .nan, hit_rate := .nan, viol_rate := .nan,
        side_bias := .nan } ∧
    ∀ (massTable : ℤ → List MassRow) (date : ℤ) (r : MassRow) (pct pub rig : List ℚ),
      massTable date = [r] →
      fetch_daily_water_and_mass_info massTable pct pub rig date =
        .ok { mass := r.mass, tech := .tech r.tech,
              percent_target := fetch_daily_restriction_target pct,
              pub_volume := fetch_pub_volume pub,
              rig_volume := fetch_rig_volume rig,
              volume_target := fetch_daily_water_target r.mass
                (fetch_daily_restriction_target pct),
              water_diff := (fetch_pub_volume pub + fetch_rig_volume rig) -
                fetch_daily_water_target r.mass (fetch_daily_restriction_target pct) } := by
  constructor
  · simp only [fetch_daily_session_info]
    rw [dif_pos h]
  · intro massTable date r pct pub rig hmt
    simp [fetch_daily_water_and_mass_info, fetch_daily_mass, fetch1, hmt]

theorem claim_C5_no_sessions_witness :
    fetch_daily_session_info [] =
      { rigid := none, n_done_trials := .nan, n_sessions := 0, start_time := none,
        train_dur_hrs := 0, trial_rate := .nan, hit_rate := .nan, viol_rate := .nan,
        side_bias := .nan } ∧
    fetch_daily_water_and_mass_info (fun d => if d = 0 then [⟨80, "jb"⟩] else [])
        [] [2] [1] 0 =
      .ok { mass := (80:ℚ), tech := .tech "jb",
            percent_target := fetch_daily_restriction_target [],
            pub_volume := fetch_pub_volume [2],
            rig_volume := fetch_rig_volume [1],
            volume_target := fetch_daily_water_target 80
              (fetch_daily_restriction_target []),
            water_diff := (fetch_pub_volume [2] + fetch_rig_volume [1]) -
              fetch_daily_water_target 80 (fetch_daily_restriction_target []) } :=
  ⟨(claim_C5_no_sessions [] rfl).1,
   (claim_C5_no_sessions [] rfl).2 (fun d => if d = 0 then [⟨80, "jb"⟩] else [])
      0 ⟨80, "jb"⟩ [] [2] [1] (by norm_num)⟩

/-- Pulling the pointwise difference out of a weighted sum: with
equal-length value lists, `Σ (r-l)*w = Σ r*w - Σ l*w`. -/
theorem zipWith_sub_mul_sum (rc lc w : List ℚ) (hlen : rc.length = lc.length) :
    (List.zipWith (fun v wt => v * wt)
      (List.zipWith (fun r l => r - l) rc lc) w).sum =
    (List.zipWith (fun v wt => v * wt) rc w).sum -
      (List.zipWith (fun v wt => v * wt) lc w).sum := by
  induction rc generalizing lc w with
  | nil =>
    have : lc = [] := by
      cases lc with
      | nil => rfl
      | cons x xs => simp at hlen
    subst this; simp
  | cons r rc ih =>
    cases lc with
    | nil => simp at hlen
    | cons l lc =>
      cases w with
      | nil => simp
      | cons x w =>
        simp only [List.zipWith_cons_cons, List.sum_cons]
        rw [ih lc w (by simpa using hlen)]
        ring

/-- C6: for same-day sessions, the daily hit rate and violation rate
are the trial-count-weighted averages of each session's total-correct
and violation fractions, and the side bias is the trial-count-weighted
average of (right-correct − left-correct), which equals the weighted
right average minus the weighted left average (negative = left bias);
sessions (trials 50, hit 0.8) and (trials 100, hit 0.6) give weighted
hit rate 2/3 ≈ 0.667. -/
theorem claim_C6_weighted_metrics (tc pv rc lc w : List ℚ)
    (hlen : rc.length = lc.length) :
    calculate_perf_metrics tc pv rc lc w =
      (np_average tc w, np_average pv w,
       np_average rc w - np_average lc w) ∧
    (fetch_daily_session_info
        [⟨50, "Rig1", 0, 3600, 4/5, 0, 0, 0⟩,
         ⟨100, "Rig1", 0, 3600, 3/5, 0, 0, 0⟩]).hit_rate = .num (2/3) := by
  constructor
  · simp only [calculate_perf_metrics, np_average, Prod.mk.injEq, true_and]
    rw [zipWith_sub_mul_sum rc lc w hlen]
    exact sub_div _ _ _
  · simp only [fetch_daily_session_info]
    rw [dif_neg (show ([⟨50, "Rig1", 0, 3600, 4/5, 0, 0, 0⟩,
        ⟨100, "Rig1", 0, 3600, 3/5, 0, 0, 0⟩] : List SessionRow).filter
        (fun s => 1 < s.n_done_trials) ≠ [] from by simp [List.filter])]
    norm_num [calculate_perf_metrics, np_average, List.filter]

theorem claim_C6_weighted_metrics_witness :
    calculate_perf_metrics [4/5, 3/5] [0, 0] [1, 0] [0, 1] [50, 100] =
      (np_average [4/5, 3/5] [50, 100], np_average [0, 0] [50, 100],
       np_average [1, 0] [50, 100] - np_average [0, 1] [50, 100]) :=
  (claim_C6_weighted_metrics [4/5, 3/5] [0, 0] [1, 0] [0, 1] [50, 100] rfl).1

/-- C10: rig-volume resolution uses `fetch1` inside a
`try/except DataJointError`, so ANY failing fetch — zero matching rows
or more than one matching row — yields 0; in particular duplicate rig
rows [3, 7] resolve to 0, while the pub-volume resolver applied to the
same rows takes the maximum 7. -/
theorem claim_C10_rig_volume (rows : List ℚ) :
    (rows.length ≠ 1 → fetch_rig_volume rows = 0) ∧
    (∀ v : ℚ, rows = [v] → fetch_rig_volume rows = v) ∧
    fetch_rig_volume [3, 7] = 0 ∧
    fetch_pub_volume [3, 7] = 7 := by
  refine ⟨?_, ?_, rfl, ?_⟩
  · intro h
    match rows with
    | [] => rfl
    | [a] => simp at h
    | a :: b :: t => rfl
  · intro v h; subst h; rfl
  · norm_num [fetch_pub_volume, listMax]

/-- C3: mass resolution for an (animal, date): exactly one Mass row on
that date returns that row's mass with the technician recorded; zero
rows on that date fall back to the row exactly one calendar day
earlier, with the technician set to the missing sentinel; and when the
prior-day lookup also finds zero rows the resolution propagates the
error instead of returning a default. -/
theorem claim_C3_mass_fallback (massTable : ℤ → List MassRow) (date : ℤ) :
    (∀ r : MassRow, massTable date = [r] →
      fetch_daily_mass massTable date = .ok (r.mass, .tech r.tech)) ∧
    (massTable date = [] → ∀ r : MassRow, massTable (date - 1) = [r] →
      fetch_daily_mass massTable date = .ok (r.mass, .nan)) ∧
    (massTable date = [] → massTable (date - 1) = [] →
      fetch_daily_mass massTable date = .error ()) := by
  refine ⟨?_, ?_, ?_⟩
  · intro r h
    simp [fetch_daily_mass, fetch1, h]
  · intro h r h1
    simp [fetch_daily_mass, fetch1, h, h1]
  · intro h h1
    simp [fetch_daily_mass, fetch1, h, h1]

theorem claim_C3_mass_fallback_witness :
    fetch_daily_mass (fun d => if d = 4 then [⟨80, "jb"⟩] else []) 4
      = .ok (80, .tech "jb") ∧
    fetch_daily_mass (fun d => if d = 4 then [⟨80, "jb"⟩] else []) 5
      = .ok (80, .nan) ∧
    fetch_daily_mass (fun _ => []) 5 = .error () :=
  ⟨(claim_C3_mass_fallback (fun d => if d = 4 then [⟨80, "jb"⟩] else []) 4).1
      ⟨80, "jb"⟩ (by norm_num),
   (claim_C3_mass_fallback (fun d => if d = 4 then [⟨80, "jb"⟩] else []) 5).2.1
      (by norm_num) ⟨80, "jb"⟩ (by norm_num),
   (claim_C3_mass_fallback (fun _ => []) 5).2.2 rfl rfl⟩

theorem claim_C10_rig_volume_witness :
    fetch_rig_volume [3, 7] = 0 ∧ fetch_rig_volume [] = 0 ∧
    fetch_rig_volume [5] = 5 :=
  ⟨(claim_C10_rig_volume [3, 7]).1 (by simp),
   (claim_C10_rig_volume []).1 (by simp),
   (claim_C10_rig_volume [5]).2.1 5 rfl⟩

end SummaryTable
